import Mathlib

/-!
Verification of the course-generator services (quiz, course, topic, solution,
homework generation) against their natural-language specification.

The Python services are shallowly embedded:

* Python `str` values are modelled as Lean `String`, and the `str` methods that
  the services use (`splitlines`, `"\n".join`, `split(sep)`, `strip`,
  `startswith`, `endswith`, `int(...)`) are reimplemented on `List Char`
  (a Lean `String` is a structure around a `List Char`), with Python's full
  line-boundary set for `splitlines` (a CRLF pair being one boundary) and
  Python's full `str.isspace` whitespace set for `strip`.
* The OpenAI chat-completion client is modelled as an oracle
  `Nat → Except String String` giving, per completion call, either a raised
  service-level exception (`.error`) or returned text (`.ok`).
* `json.loads` followed by the expected typed shape is modelled as an abstract
  `parse : String → Option payload` parameter (`none` = `json.JSONDecodeError`);
  the per-operation payload types mirror the dicts the services read, with
  `Option` fields for keys that may be absent (Pydantic hydration of a model
  with required fields succeeds exactly when all required keys are present;
  extra keys are ignored).
* `async` is irrelevant to the claims: each service awaits its calls
  sequentially, so the embedding is the evident sequential function.
-/

set_option autoImplicit false

/-! ### Python string primitives, on `List Char` -/

/-- The backtick character (written via its code point). -/
def btChar : Char := Char.ofNat 96

/-- The three-backtick code-fence marker. -/
def fence3 : List Char := [btChar, btChar, btChar]

/-- The json-tagged code-fence opener, the seven characters of three backticks
followed by `json`. -/
def jsonFenceTag : List Char := fence3 ++ ['j', 's', 'o', 'n']

/-- The line-boundary characters of Python `str.splitlines`: LF, CR, VT, FF,
FS, GS, RS, NEL, LINE SEPARATOR and PARAGRAPH SEPARATOR.  A CRLF pair counts
as a single boundary, which `splitLines` handles itself. -/
def isPyLineBreak (c : Char) : Bool :=
  c = '\n' ∨ c = '\r' ∨ c = '\x0b' ∨ c = '\x0c' ∨ c = '\x1c' ∨ c = '\x1d' ∨
    c = '\x1e' ∨ c = '\x85' ∨ c = '\u2028' ∨ c = '\u2029'

/-- Fuelled worker for `splitLines`; the fuel bounds the number of characters
still to be scanned, so `fuel = s.length` always suffices. -/
def splitLinesF : Nat → List Char → List (List Char)
  | _, [] => [[]]
  | 0, s => [s]
  | fuel + 1, c :: rest =>
    if c = '\r' ∧ rest.head? = some '\n' then
      [] :: splitLinesF fuel rest.tail
    else if isPyLineBreak c then
      [] :: splitLinesF fuel rest
    else
      match splitLinesF fuel rest with
      | [] => [[c]]
      | l :: ls => (c :: l) :: ls

/-- Python `str.splitlines` before its trailing-entry adjustment: split at
every line boundary, a CRLF pair counting as one boundary. Never returns
`[]`. -/
def splitLines (s : List Char) : List (List Char) := splitLinesF s.length s

/-- Python `"\n".join(lines)`. -/
def joinNl : List (List Char) → List Char
  | [] => []
  | [l] => l
  | l :: l2 :: ls => l ++ '\n' :: joinNl (l2 :: ls)

/-- Python `str.splitlines()`: split at every line boundary, with no final
empty entry for a trailing boundary and no lines at all for the empty
string. -/
def pySplitlines (s : List Char) : List (List Char) :=
  let ps := splitLines s
  if ps.getLast? = some [] then ps.dropLast else ps

/-- The whitespace characters of Python `str.isspace` (the set `str.strip`
removes): ASCII whitespace, the control separators, NEL, NBSP and the Unicode
space and line separators. -/
def isPySpace (c : Char) : Bool :=
  c = ' ' ∨ c = '\t' ∨ c = '\n' ∨ c = '\x0b' ∨ c = '\x0c' ∨ c = '\r' ∨
    c = '\x1c' ∨ c = '\x1d' ∨ c = '\x1e' ∨ c = '\x1f' ∨ c = '\x85' ∨
    c = '\xa0' ∨ c = '\u1680' ∨ ('\u2000' ≤ c ∧ c ≤ '\u200a') ∨
    c = '\u2028' ∨ c = '\u2029' ∨ c = '\u202f' ∨ c = '\u205f' ∨ c = '\u3000'

/-- Drop leading Python-whitespace characters. -/
def dropWs (s : List Char) : List Char := s.dropWhile isPySpace

/-- Python `str.strip()`: drop leading and trailing whitespace. -/
def pyStrip (s : List Char) : List Char := (dropWs (dropWs s).reverse).reverse

/-- Fuelled worker for `pySplit`; the fuel bounds the number of characters
still to be scanned, so `fuel = s.length` always suffices. -/
def pySplitF (c0 : Char) (sepR : List Char) : Nat → List Char → List (List Char)
  | _, [] => [[]]
  | 0, s => [s]
  | fuel + 1, c :: rest =>
    if c = c0 ∧ sepR.isPrefixOf rest then
      [] :: pySplitF c0 sepR fuel (rest.drop sepR.length)
    else
      match pySplitF c0 sepR fuel rest with
      | [] => [[c]]
      | l :: ls => (c :: l) :: ls

/-- Python `s.split(sep)` for a non-empty separator: split at every
non-overlapping occurrence of `sep`, scanning left to right.  (Python raises
on an empty separator; the services only split on `"```json"`, `"```"` and
`":"`.) -/
def pySplit (sep s : List Char) : List (List Char) :=
  match sep with
  | [] => [s]
  | c0 :: sepR => pySplitF c0 sepR s.length s

/-- Python `"```json" in raw`: at least one occurrence, i.e. `split` yields at
least two parts. -/
def hasJsonTag (raw : List Char) : Bool :=
  decide (2 ≤ (pySplit jsonFenceTag raw).length)

/-- Value of a non-empty digit string. -/
def digitsToNat (s : List Char) : Nat :=
  s.foldl (fun n c => n * 10 + (c.toNat - 48)) 0

/-- Python `int(s)` for a decimal string: strip whitespace, allow one optional
sign, then require at least one digit; `none` models a raised `ValueError`.
(Underscore digit grouping is not modelled; no input here uses it.) -/
def pyToInt (s : List Char) : Option Int :=
  match pyStrip s with
  | [] => none
  | c :: rest =>
    if c = '-' then
      if rest ≠ [] ∧ rest.all Char.isDigit then some (-(digitsToNat rest : Int)) else none
    else if c = '+' then
      if rest ≠ [] ∧ rest.all Char.isDigit then some (digitsToNat rest : Int) else none
    else if (c :: rest).all Char.isDigit then some (digitsToNat (c :: rest) : Int) else none

/-! ### The two code-fence sanitizers -/

/-- The fence stripper of `QuizGen._call_llm` and `CourseGenerator._call_llm`:

    if text.startswith("```"):
        text = "\n".join(text.splitlines()[1:])
        if text.endswith("```"):
            text = "\n".join(text.splitlines()[:-1])
-/
def stripFenceCh (text : List Char) : List Char :=
  if fence3.isPrefixOf text then
    let t := joinNl ((pySplitlines text).drop 1)
    if fence3.isSuffixOf t then joinNl ((pySplitlines t).dropLast) else t
  else text

/-- The fence stripper of `SolutionGen.generate_solution` and
`HomeworkGen.generate_homework`:

    if "```json" in raw_text:
        raw_text = raw_text.split("```json")[1].split("```")[0].strip()

The membership test succeeds exactly when `split("```json")` yields a second
part, which is what the match below inspects. -/
def stripJsonFenceCh (raw : List Char) : List Char :=
  match pySplit jsonFenceTag raw with
  | _ :: second :: _ => pyStrip ((pySplit fence3 second).headD [])
  | _ => raw

/-- String-level wrapper of `pyStrip`. -/
def pyStripS (s : String) : String := ⟨pyStrip s.data⟩

/-- String-level wrapper of `stripFenceCh`. -/
def stripFenceS (s : String) : String := ⟨stripFenceCh s.data⟩

/-- String-level wrapper of `stripJsonFenceCh`. -/
def stripJsonFenceS (s : String) : String := ⟨stripJsonFenceCh s.data⟩

/-! ### Pydantic models (src/models.py)

`Course.id` and `Course.created_at` (a fresh UUID and the wall-clock creation
time) are omitted: they are nondeterministic environment reads that no claim
mentions. -/

/-- models.TopicQuestion. -/
structure TopicQuestion where
  question : String
  options : List String
  correct_answer : String
deriving DecidableEq, Repr

/-- models.Topic. -/
structure Topic where
  title : String
  duration_minutes : Int
  youtube_url : String
  questions : List TopicQuestion
deriving DecidableEq, Repr

/-- models.Session. -/
structure Session where
  session_no : Int
  session_name : String
  learning_objectives : List String
  topics : List Topic
  coding_problem : String
  coding_solution : String
deriving DecidableEq, Repr

/-- models.Course, without the nondeterministic `id`/`created_at` fields. -/
structure Course where
  subject : String
  level : String
  total_sessions : Int
  sessions : List Session
deriving DecidableEq, Repr

/-- models.ProblemSolution. -/
structure ProblemSolution where
  problem_statement : String
  skeleton_code : String
  solution_code : String
deriving DecidableEq, Repr

/-- models.HomeworkProblem. -/
structure HomeworkProblem where
  problem_statement : String
  skeleton_code : String
  hints : List String
deriving DecidableEq, Repr

/-! ### The retrying LLM call of QuizGen and CourseGenerator

`QuizGen._call_llm` and `CourseGenerator._call_llm` are the same loop, differing
only in the payload type parsed from the JSON (`List[dict]` vs `dict`) and in
the default returned on failure (`[]` vs `{}`); they are embedded once,
generically in the payload type `α` and the failure default. -/

/-- Outcome of one iteration of the `while` body of `_call_llm`, as a function
of the completion oracle and the JSON parser: a service-level exception
(`.error`, anything the `except Exception` arm catches), or returned text that
is stripped, fence-sanitized and handed to `json.loads` (`.ok none` models a
`json.JSONDecodeError`, `.ok (some v)` a successful parse). -/
def attemptOutcome {α : Type} (oracle : Nat → Except String String)
    (parse : String → Option α) (i : Nat) : Except String (Option α) :=
  match oracle i with
  | .error e => .error e
  | .ok raw => .ok (parse (stripFenceS (pyStripS raw)))

/-- The `while attempt <= max_retries` loop of `_call_llm`.  `calls` counts
completion calls already made (equals the `attempt` counter, which is bumped
exactly on parse failure), and the fuel argument is the number of loop
iterations still permitted, initially `max_retries + 1`; the loop body makes
exactly one completion call per iteration, returns on a parsed payload or on a
service-level exception, and only continues (incrementing `attempt`) on a parse
failure, so the fuel faithfully bounds the loop. -/
def callLLMRun {α : Type} (default : α) (att : Nat → Except String (Option α)) :
    Nat → Nat → α × Nat
  | calls, 0 => (default, calls)
  | calls, n + 1 =>
    match att calls with
    | .error _ => (default, calls + 1)
    | .ok (some v) => (v, calls + 1)
    | .ok none => callLLMRun default att (calls + 1) n

/-- `_call_llm(prompt, max_tokens, max_retries)`: returns the parsed payload
(or the failure default) together with the number of completion calls made. -/
def callLLM {α : Type} (default : α) (oracle : Nat → Except String String)
    (parse : String → Option α) (maxRetries : Nat) : α × Nat :=
  callLLMRun default (attemptOutcome oracle parse) 0 (maxRetries + 1)

/-! ### QuizGen (src/services/quiz_gen.py) -/

/-- One element of the JSON list `_call_llm` returns to `generate_quiz`: a dict
whose relevant keys may each be absent. -/
structure QuestionData where
  question : Option String
  options : Option (List String)
  correct_answer : Option String
deriving DecidableEq, Repr

/-- `TopicQuestion(**q)`: Pydantic hydration succeeds iff every required field
is present (extra keys are ignored); in `generate_quiz` a failure is caught and
the question is skipped. -/
def hydrateQuestion (q : QuestionData) : Option TopicQuestion :=
  match q.question, q.options, q.correct_answer with
  | some qs, some os, some ca => some ⟨qs, os, ca⟩
  | _, _, _ => none

/-- A single apostrophe (written via its code point). -/
def aposChar : String := String.singleton (Char.ofNat 39)

/-- The text of the fallback question `generate_quiz` synthesizes:
an f-string quoting the video title in single quotes. -/
def conceptQuestion (video_title : String) : String :=
  "What is the main concept of " ++ aposChar ++ video_title ++ aposChar ++ "?"

/-- The fallback dict `generate_quiz` substitutes when `_call_llm` came back
empty. -/
def fallbackQuestionData (video_title : String) : QuestionData :=
  ⟨some (conceptQuestion video_title), some ["A", "B", "C", "D"], some "A"⟩

/-- Result of `generate_quiz`: the number of questions the prompt asks the
model for, and the hydrated question list returned to the caller. -/
structure QuizResult where
  requested : Int
  questions : List TopicQuestion
deriving DecidableEq, Repr

/-- `QuizGen.generate_quiz(video_title, duration_minutes)`; `Int.fdiv` is
Python's floor division `//`. -/
def generate_quiz (video_title : String) (duration_minutes : Int)
    (oracle : Nat → Except String String)
    (parse : String → Option (List QuestionData)) : QuizResult :=
  let num_questions : Int := max 1 (Int.fdiv duration_minutes 5)
  let questions_data := (callLLM [] oracle parse 2).1
  let questions_data :=
    if questions_data.isEmpty then [fallbackQuestionData video_title] else questions_data
  ⟨num_questions, questions_data.filterMap hydrateQuestion⟩

/-! ### CourseGenerator (src/services/course_gen.py) -/

/-- One element of the `"topics"` list in the parsed course payload.  The
code reads only `t.get("title", "")`; the remaining fields are carried to show
that values the model supplies for them are discarded. -/
structure TopicPayload where
  title : Option String
  duration_minutes : Option Int
  youtube_url : Option String
  questions : Option (List TopicQuestion)
deriving DecidableEq, Repr

/-- One element of the `"sessions"` list in the parsed course payload; every
key may be absent (`s.get` with a default).  `coding_problem` and
`coding_solution` are carried to show the code never reads them. -/
structure SessionPayload where
  session_no : Option Int
  session_name : Option String
  learning_objectives : Option (List String)
  topics : Option (List TopicPayload)
  coding_problem : Option String
  coding_solution : Option String
deriving DecidableEq, Repr

/-- The dict `CourseGenerator._call_llm` parses.  A falsy payload (the empty
dict `{}`, which is also the loop's failure default) is represented by `none`
at the use site, so the payload type in `callLLM` is `Option CoursePayload`. -/
structure CoursePayload where
  subject : Option String
  level : Option String
  total_sessions : Option Int
  sessions : Option (List SessionPayload)
deriving DecidableEq, Repr

/-- Hydration of one topic dict inside `generate_course_structure`:
`Topic(title=t.get("title", ""), duration_minutes=0, youtube_url="",
questions=[])`. -/
def hydrateTopic (t : TopicPayload) : Topic :=
  ⟨t.title.getD "", 0, "", []⟩

/-- Hydration of one session dict inside `generate_course_structure`. -/
def hydrateSession (s : SessionPayload) : Session :=
  ⟨s.session_no.getD 0, s.session_name.getD "", s.learning_objectives.getD [],
    (s.topics.getD []).map hydrateTopic, "", ""⟩

/-- The message of the `ValueError` raised when the parsed payload is falsy. -/
def courseGenFailureMsg : String := "❌ Failed to generate valid JSON from LLM"

/-- `CourseGenerator.generate_course_structure(title, total_sessions,
topics_per_session)`.  `topics_per_session` only appears in the prompt text.
The JSON parser yields `Option CoursePayload`: `some none` is a successfully
parsed falsy dict (`{}`), `some (some p)` a non-empty dict. -/
def generate_course_structure (title : String) (total_sessions : Int)
    (_topics_per_session : Int) (oracle : Nat → Except String String)
    (parse : String → Option (Option CoursePayload)) : Except String Course :=
  match (callLLM (none : Option CoursePayload) oracle parse 2).1 with
  | none => .error courseGenFailureMsg
  | some p =>
    .ok
      { subject := p.subject.getD title
        level := p.level.getD "beginner"
        total_sessions := p.total_sessions.getD total_sessions
        sessions := (p.sessions.getD []).map hydrateSession }

/-! ### TopicGen (src/services/topic_gen.py) -/

/-- One entry of `results.get("video_results", [])`.  `link` and `title` are
accessed unconditionally (`video["link"]`, `video["title"]`) and are modelled
as present; `length` is read with `video.get("length", "0:00")`. -/
structure VideoResult where
  link : String
  title : String
  length : Option String
deriving DecidableEq, Repr

/-- The dict `get_video` returns on success. -/
structure FoundVideo where
  url : String
  title : String
  duration : Int
deriving DecidableEq, Repr

/-- `int(length.split(":")[0])` for one candidate video. -/
def videoMinutes (v : VideoResult) : Option Int :=
  pyToInt ((pySplit [':'] (v.length.getD "0:00").data).headD [])

/-- `TopicGen.get_video`, applied to the candidate list the search service
returned: scan candidates in order, return the first whose parsed minutes lie
in 15–20 inclusive, `none` when the list is exhausted; an unparseable length
raises `ValueError` out of the search thread (`.error`). -/
def get_video : List VideoResult → Except String (Option FoundVideo)
  | [] => .ok none
  | v :: rest =>
    match videoMinutes v with
    | none => .error "ValueError: invalid literal for int"
    | some mins =>
      if 15 ≤ mins ∧ mins ≤ 20 then .ok (some ⟨v.link, v.title, mins⟩)
      else get_video rest

/-- The acceptance test of the claim: the candidate's parsed duration lies in
the 15–20 window. -/
def videoAccept (v : VideoResult) : Bool :=
  match videoMinutes v with
  | some m => decide (15 ≤ m) && decide (m ≤ 20)
  | none => false

/-- The success dict built from an accepted candidate. -/
def mkFoundVideo (v : VideoResult) : FoundVideo :=
  ⟨v.link, v.title, (videoMinutes v).getD 0⟩

/-! ### SolutionGen (src/services/solution_gen.py) -/

/-- The dict `generate_solution` parses; each key may be absent. -/
structure SolutionPayload where
  problem_statement : Option String
  skeleton_code : Option String
  solution_code : Option String
deriving DecidableEq, Repr

/-- `ProblemSolution(**data)`: succeeds iff all required keys are present;
a failure is caught by the surrounding `except` and yields the fallback. -/
def hydrateSolution (p : SolutionPayload) : Option ProblemSolution :=
  match p.problem_statement, p.skeleton_code, p.solution_code with
  | some ps, some sk, some sc => some ⟨ps, sk, sc⟩
  | _, _, _ => none

/-- The sentinel solution text of the fallback object. -/
def unableToGenerateMsg : String := "# Unable to generate solution"

/-- `SolutionGen.generate_solution(problem_statement, skeleton_code)`: one
completion call, `strip` then json-tagged fence removal then parse and
hydrate; every failure path lands in the `except` arm, which returns the
fallback `ProblemSolution` echoing the inputs with the sentinel text. -/
def generate_solution (problem_statement : String) (skeleton_code : String)
    (resp : Except String String) (parse : String → Option SolutionPayload) :
    ProblemSolution :=
  match resp with
  | .error _ => ⟨problem_statement, skeleton_code, unableToGenerateMsg⟩
  | .ok raw =>
    match (parse (stripJsonFenceS (pyStripS raw))).bind hydrateSolution with
    | some sol => sol
    | none => ⟨problem_statement, skeleton_code, unableToGenerateMsg⟩

/-! ### HomeworkGen (src/services/homework_gen.py) -/

/-- One element of the JSON list `generate_homework` parses. -/
structure HomeworkPayload where
  problem_statement : Option String
  skeleton_code : Option String
  hints : Option (List String)
deriving DecidableEq, Repr

/-- `HomeworkProblem(**p)` for one element; a failure raises and is caught by
the surrounding `except`, discarding the whole batch. -/
def hydrateHomework (p : HomeworkPayload) : Option HomeworkProblem :=
  match p.problem_statement, p.skeleton_code, p.hints with
  | some ps, some sk, some hs => some ⟨ps, sk, hs⟩
  | _, _, _ => none

/-- `HomeworkGen.generate_homework(transcript)`.  The `except Exception` arm
only logs and has no `return`, so the Python function returns `None` there;
the embedding therefore returns `Option (List HomeworkProblem)`, with `none`
for that implicit `None`. -/
def generate_homework (_transcript : String) (resp : Except String String)
    (parse : String → Option (List HomeworkPayload)) :
    Option (List HomeworkProblem) :=
  match resp with
  | .error _ => none
  | .ok raw =>
    match parse (stripJsonFenceS (pyStripS raw)) with
    | none => none
    | some ds => ds.mapM hydrateHomework

/-! ### Concrete stub services used by witnesses and counterexamples -/

/-- Stub completion service for the retry-ceiling witness: invalid JSON on the
first two calls, valid JSON afterwards. -/
def c1Oracle : Nat → Except String String :=
  fun i => .ok (if i < 2 then "not json" else "good")

/-- Stub parser for the retry-ceiling witness: only the text `good` parses. -/
def c1Parse : String → Option Nat :=
  fun s => if s = "good" then some 42 else none

/-- Stub service whose output parses to a single dict with no usable keys
(the JSON text `[{}]`). -/
def c2Oracle : Nat → Except String String := fun _ => .ok "irrelevant"

/-- Parser for `c2Oracle`: one question dict with every key absent. -/
def c2Parse : String → Option (List QuestionData) :=
  fun _ => some [⟨none, none, none⟩]

/-- Stub service that always raises, for the quiz-placeholder witness. -/
def c2wOracle : Nat → Except String String := fun _ => .error "boom"

/-- Parser never reached by `c2wOracle`. -/
def c2wParse : String → Option (List QuestionData) := fun _ => none

/-- Stub service for the course counterexample. -/
def c3Oracle : Nat → Except String String := fun _ => .ok "irrelevant"

/-- Parser for `c3Oracle`: a truthy dict that has a `subject` but no
`sessions` key at all (the JSON text `{"subject": "X"}`). -/
def c3Parse : String → Option (Option CoursePayload) :=
  fun _ => some (some ⟨some "X", none, none, none⟩)

/-- Stub service that raises on the very first call (rate limit). -/
def c4Oracle : Nat → Except String String := fun _ => .error "rate limit"

/-- Parser never reached by `c4Oracle`. -/
def c4Parse : String → Option (List QuestionData) := fun _ => none

/-- Stub service for the question-count witness. -/
def c5Oracle : Nat → Except String String := fun _ => .error "down"

/-- Parser never reached by `c5Oracle`. -/
def c5Parse : String → Option (List QuestionData) := fun _ => none

/-- Candidate list with durations 10, 16 and 25 minutes. -/
def c6Vids1 : List VideoResult :=
  [⟨"u1", "t1", some "10:00"⟩, ⟨"u2", "t2", some "16:30"⟩, ⟨"u3", "t3", some "25:00"⟩]

/-- Candidate list with durations 5 and 30 minutes. -/
def c6Vids2 : List VideoResult :=
  [⟨"u1", "t1", some "5:00"⟩, ⟨"u2", "t2", some "30:00"⟩]

/-- Stub service for the constant-fields witness. -/
def c10Oracle : Nat → Except String String := fun _ => .ok "irrelevant"

/-- A course payload whose topic and session dicts supply their own values for
the fields the hydration is claimed to overwrite. -/
def c10Payload : CoursePayload :=
  ⟨some "Calc", some "advanced", some 7,
    some [⟨some 1, some "S1", some ["obj"],
      some [⟨some "T1", some 42, some "http://y", some [⟨"q", ["a"], "a"⟩]⟩],
      some "their problem", some "their solution"⟩]⟩

/-- Parser for `c10Oracle`, returning `c10Payload`. -/
def c10Parse : String → Option (Option CoursePayload) :=
  fun _ => some (some c10Payload)

/-- The session `generate_course_structure` builds from `c10Payload`. -/
def c10Session : Session :=
  ⟨1, "S1", ["obj"], [⟨"T1", 0, "", []⟩], "", ""⟩

/-! ### Lemmas about the retry loop -/

/-- Each loop iteration makes exactly one completion call, so the call count
grows by at most the remaining fuel. -/
theorem callLLMRun_snd_le {α : Type} (d : α) (att : Nat → Except String (Option α)) :
    ∀ (n calls : Nat), (callLLMRun d att calls n).2 ≤ calls + n := by
  intro n
  induction n with
  | zero => intro c; simp [callLLMRun]
  | succ n ih =>
    intro c
    simp only [callLLMRun]
    cases ha : att c with
    | error e => simp
    | ok o =>
      cases o with
      | some v => simp
      | none =>
        have := ih (c + 1)
        simp only []
        omega

/-- If the first `N` attempts (numbered from `calls`) are parse failures and
attempt `calls + N` parses, the loop returns that value after `N + 1` calls. -/
theorem callLLMRun_parsed_at {α : Type} (d : α) (att : Nat → Except String (Option α)) :
    ∀ (n N calls : Nat) (v : α), N < n →
      (∀ i, i < N → att (calls + i) = .ok none) →
      att (calls + N) = .ok (some v) →
      callLLMRun d att calls n = (v, calls + N + 1) := by
  intro n
  induction n with
  | zero => intro N c v h; omega
  | succ n ih =>
    intro N c v hN hfail hok
    cases N with
    | zero =>
      simp only [Nat.add_zero] at hok
      simp [callLLMRun, hok]
    | succ N =>
      have h0 : att c = .ok none := by simpa using hfail 0 (by omega)
      have hrec := ih N (c + 1) v (by omega)
        (fun i hi => by
          have := hfail (i + 1) (by omega)
          simpa [Nat.add_assoc, Nat.add_comm 1 i] using this)
        (by
          have : c + (N + 1) = c + 1 + N := by omega
          rw [this] at hok
          exact hok)
      simp only [callLLMRun, h0]
      rw [hrec]
      have : c + 1 + N + 1 = c + (N + 1) + 1 := by omega
      rw [this]

/-- If the first `N` attempts are parse failures and attempt `calls + N`
raises a service-level error, the loop returns the failure default after
`N + 1` calls, performing no further completion calls. -/
theorem callLLMRun_error_at {α : Type} (d : α) (att : Nat → Except String (Option α)) :
    ∀ (n N calls : Nat) (e : String), N < n →
      (∀ i, i < N → att (calls + i) = .ok none) →
      att (calls + N) = .error e →
      callLLMRun d att calls n = (d, calls + N + 1) := by
  intro n
  induction n with
  | zero => intro N c e h; omega
  | succ n ih =>
    intro N c e hN hfail herr
    cases N with
    | zero =>
      simp only [Nat.add_zero] at herr
      simp [callLLMRun, herr]
    | succ N =>
      have h0 : att c = .ok none := by simpa using hfail 0 (by omega)
      have hrec := ih N (c + 1) e (by omega)
        (fun i hi => by
          have := hfail (i + 1) (by omega)
          simpa [Nat.add_assoc, Nat.add_comm 1 i] using this)
        (by
          have : c + (N + 1) = c + 1 + N := by omega
          rw [this] at herr
          exact herr)
      simp only [callLLMRun, h0]
      rw [hrec]
      have : c + 1 + N + 1 = c + (N + 1) + 1 := by omega
      rw [this]

/-- Every attempt before the last one made was a parse failure: only a parse
failure continues the loop. -/
theorem callLLMRun_earlier_parse_failure {α : Type} (d : α)
    (att : Nat → Except String (Option α)) :
    ∀ (n calls i : Nat), calls + i + 1 < (callLLMRun d att calls n).2 →
      att (calls + i) = .ok none := by
  intro n
  induction n with
  | zero => intro c i h; simp [callLLMRun] at h; omega
  | succ n ih =>
    intro c i h
    simp only [callLLMRun] at h
    cases ha : att c with
    | error e => rw [ha] at h; simp at h
    | ok o =>
      cases o with
      | some v => rw [ha] at h; simp at h
      | none =>
        rw [ha] at h
        simp only [] at h
        cases i with
        | zero => simpa using ha
        | succ i =>
          have := ih (c + 1) i (by omega)
          have harith : c + 1 + i = c + (i + 1) := by omega
          rw [harith] at this
          exact this

/-- C1: for every single generation request, the retrying `_call_llm` loop
shared by the quiz and course generators invokes the completion service at
most `max_retries + 1` times (3 with the default `max_retries = 2`), and when
the first `N ≤ max_retries` calls yield invalid JSON and call `N` yields valid
JSON, exactly `N + 1` calls are made and the parsed payload is returned — the
retry counter advances only on JSON parse failures, and the loop always
terminates because each iteration either returns or increments the counter. -/
theorem c1_call_llm_retry_ceiling :
    (∀ (α : Type) (d : α) (oracle : Nat → Except String String)
        (parse : String → Option α) (maxRetries : Nat),
      (callLLM d oracle parse maxRetries).2 ≤ maxRetries + 1) ∧
    (∀ (α : Type) (d : α) (oracle : Nat → Except String String)
        (parse : String → Option α) (maxRetries N : Nat) (v : α),
      N ≤ maxRetries →
      (∀ i, i < N → attemptOutcome oracle parse i = .ok none) →
      attemptOutcome oracle parse N = .ok (some v) →
      callLLM d oracle parse maxRetries = (v, N + 1)) := by
  constructor
  · intro α d oracle parse maxRetries
    have := callLLMRun_snd_le d (attemptOutcome oracle parse) (maxRetries + 1) 0
    simpa [callLLM] using this
  · intro α d oracle parse maxRetries N v hN hfail hok
    have := callLLMRun_parsed_at d (attemptOutcome oracle parse)
      (maxRetries + 1) N 0 v (by omega)
      (fun i hi => by simpa using hfail i hi)
      (by simpa using hok)
    simpa [callLLM] using this

/-- Witness for C1: a stub completion service returning invalid JSON on the
first two calls and valid JSON on the third is called exactly 3 times with the
default `max_retries = 2`, returns the parsed payload, and stays within the
ceiling. -/
theorem c1_call_llm_retry_ceiling_witness :
    callLLM (0 : Nat) c1Oracle c1Parse 2 = (42, 3) ∧
      (callLLM (0 : Nat) c1Oracle c1Parse 2).2 ≤ 3 := by
  have h := c1_call_llm_retry_ceiling
  refine ⟨h.2 Nat 0 c1Oracle c1Parse 2 2 42 (by decide) ?_ rfl, h.1 Nat 0 c1Oracle c1Parse 2⟩
  intro i hi
  have : i = 0 ∨ i = 1 := by omega
  rcases this with h0 | h1
  · subst h0; rfl
  · subst h1; rfl

/-- C4: when the completion service itself raises a non-parse error (after `N`
earlier parse-failure retries, in particular immediately at `N = 0`), the
`_call_llm` loop of the quiz and course generators aborts at once — it signals
failure by returning the empty default after exactly `N + 1` completion calls —
and a JSON parse failure is the only outcome after which a further completion
call is ever made. -/
theorem c4_service_error_aborts :
    (∀ (α : Type) (d : α) (oracle : Nat → Except String String)
        (parse : String → Option α) (maxRetries N : Nat) (e : String),
      N ≤ maxRetries →
      (∀ i, i < N → attemptOutcome oracle parse i = .ok none) →
      attemptOutcome oracle parse N = .error e →
      callLLM d oracle parse maxRetries = (d, N + 1)) ∧
    (∀ (α : Type) (d : α) (oracle : Nat → Except String String)
        (parse : String → Option α) (maxRetries i : Nat),
      i + 1 < (callLLM d oracle parse maxRetries).2 →
      attemptOutcome oracle parse i = .ok none) := by
  constructor
  · intro α d oracle parse maxRetries N e hN hfail herr
    have := callLLMRun_error_at d (attemptOutcome oracle parse)
      (maxRetries + 1) N 0 e (by omega)
      (fun i hi => by simpa using hfail i hi)
      (by simpa using herr)
    simpa [callLLM] using this
  · intro α d oracle parse maxRetries i hi
    have := callLLMRun_earlier_parse_failure d (attemptOutcome oracle parse)
      (maxRetries + 1) 0 i (by simpa [callLLM] using hi)
    simpa using this

/-- Witness for C4: a completion service that raises a rate-limit error on the
very first call makes the quiz-shaped `_call_llm` return the empty list after
exactly one completion call. -/
theorem c4_service_error_aborts_witness :
    callLLM ([] : List QuestionData) c4Oracle c4Parse 2 = ([], 1) := by
  have h := c4_service_error_aborts.1 (List QuestionData) [] c4Oracle c4Parse 2 0
    "rate limit" (by decide) (fun i hi => absurd hi (by omega)) rfl
  simpa using h

/-- C2 counterexample: when the model output parses to the non-empty JSON list
`[{}]` (one question dict with no usable keys), `generate_quiz` skips the
placeholder branch — `questions_data` is truthy — and every hydration fails, so
it returns the empty sequence, contradicting the claim that zero usable
questions always yield exactly one placeholder question. -/
theorem c2_counterexample :
    (generate_quiz "Python" 10 c2Oracle c2Parse).questions = [] := rfl

/-- C2 amended: only when `_call_llm` itself comes back empty (its parse
retries were exhausted or the service raised, or the model returned the JSON
text `[]`) does `generate_quiz` substitute exactly one placeholder question —
text naming the subject, options `A`–`D`, correct answer `A`; when the parsed
list is non-empty but every element fails hydration, the result is empty. -/
theorem c2_amended_placeholder (title : String) (d : Int)
    (oracle : Nat → Except String String)
    (parse : String → Option (List QuestionData))
    (h : (callLLM [] oracle parse 2).1 = []) :
    (generate_quiz title d oracle parse).questions =
      [⟨conceptQuestion title, ["A", "B", "C", "D"], "A"⟩] := by
  simp [generate_quiz, h, fallbackQuestionData, hydrateQuestion]

/-- Witness for C2 (amended): a completion service that always raises makes
`generate_quiz` return exactly the one placeholder question. -/
theorem c2_amended_placeholder_witness :
    (generate_quiz "Python" 10 c2wOracle c2wParse).questions =
      [⟨conceptQuestion "Python", ["A", "B", "C", "D"], "A"⟩] :=
  c2_amended_placeholder "Python" 10 c2wOracle c2wParse rfl

/-- C3 counterexample: when the model output parses to the truthy dict
`{"subject": "X"}` (no `sessions` key), `generate_course_structure` does not
raise — it silently returns a `Course` whose session sequence is empty,
contradicting the claim. -/
theorem c3_counterexample :
    generate_course_structure "T" 3 2 c3Oracle c3Parse =
        .ok ⟨"X", "beginner", 3, []⟩ ∧
      (⟨"X", "beginner", 3, []⟩ : Course).sessions = [] :=
  ⟨rfl, rfl⟩

/-- C3 amended: `generate_course_structure` raises (with its fixed message)
exactly when `_call_llm` produced a falsy payload — the empty dict, from
exhausted parse retries, a service error, or a model output of `{}`; any
truthy payload, even one with no or empty `sessions`, yields a `Course`
without an error, possibly with an empty session sequence. -/
theorem c3_amended_error_iff_falsy (title : String) (ts tps : Int)
    (oracle : Nat → Except String String)
    (parse : String → Option (Option CoursePayload)) :
    (generate_course_structure title ts tps oracle parse
        = .error courseGenFailureMsg)
      ↔ (callLLM (none : Option CoursePayload) oracle parse 2).1 = none := by
  cases h : (callLLM (none : Option CoursePayload) oracle parse 2).1 with
  | none => simp [generate_course_structure, h]
  | some p => simp [generate_course_structure, h]

/-- C5: for every requested duration `d` (minutes), the question count that
`generate_quiz` asks the model for equals `max 1 (d // 5)` — with `//` Python's
floor division — hence is at least one for every duration and equals `d // 5`
whenever `d ≥ 5`. -/
theorem c5_question_count (title : String) (d : Int)
    (oracle : Nat → Except String String)
    (parse : String → Option (List QuestionData)) :
    (generate_quiz title d oracle parse).requested = max 1 (Int.fdiv d 5) ∧
      1 ≤ (generate_quiz title d oracle parse).requested ∧
      (5 ≤ d → (generate_quiz title d oracle parse).requested = Int.fdiv d 5) := by
  refine ⟨rfl, le_max_left 1 _, fun h5 => ?_⟩
  have hb : (0 : Int) ≤ 5 := by norm_num
  have h1 : (1 : Int) ≤ Int.fdiv d 5 := by
    rw [Int.fdiv_eq_ediv d hb]
    rw [Int.le_ediv_iff_mul_le (by norm_num)]
    omega
  show max 1 (Int.fdiv d 5) = Int.fdiv d 5
  exact max_eq_right h1

/-- Witness for C5: a 20-minute video yields a request for `20 // 5 = 4`
questions. -/
theorem c5_question_count_witness :
    (generate_quiz "t" 20 c5Oracle c5Parse).requested = Int.fdiv 20 5 :=
  (c5_question_count "t" 20 c5Oracle c5Parse).2.2 (by norm_num)

/-- C6: on any candidate list in which every length string parses,
`get_video` returns the first candidate, in the service's order, whose
minutes-component lies in the inclusive 15–20 window (as the dict
`mkFoundVideo` builds), and a not-found `none` when no candidate qualifies —
in particular when the search yielded no results. -/
theorem c6_first_video_in_window (vs : List VideoResult)
    (h : ∀ v ∈ vs, (videoMinutes v).isSome) :
    get_video vs = .ok ((vs.find? videoAccept).map mkFoundVideo) := by
  induction vs with
  | nil => rfl
  | cons v rest ih =>
    have hv := h v (by simp)
    match hm : videoMinutes v with
    | none => rw [hm] at hv; simp at hv
    | some m =>
      simp only [get_video, hm]
      by_cases hw : 15 ≤ m ∧ m ≤ 20
      · rw [if_pos hw]
        have hacc : videoAccept v = true := by
          simp [videoAccept, hm, decide_eq_true_iff]
          exact hw
        rw [List.find?_cons_of_pos _ hacc]
        simp [mkFoundVideo, hm]
      · rw [if_neg hw]
        have hacc : videoAccept v = false := by
          simp only [videoAccept, hm]
          simp only [Bool.and_eq_false_iff, decide_eq_false_iff_not]
          omega
        rw [List.find?_cons_of_neg _ (by simp [hacc])]
        exact ih (fun u hu => h u (by simp [hu]))

/-- Witness for C6: candidates of 10, 16 and 25 minutes yield the 16-minute
one; candidates of 5 and 30 minutes yield not-found. -/
theorem c6_first_video_in_window_witness :
    get_video c6Vids1 = .ok (some ⟨"u2", "t2", 16⟩) ∧
      get_video c6Vids2 = .ok none := by
  constructor
  · rw [c6_first_video_in_window c6Vids1 (by decide)]; rfl
  · rw [c6_first_video_in_window c6Vids2 (by decide)]; rfl

/-- C7: when the completion service raises during `generate_solution`, the
call returns — it does not raise — the fallback `ProblemSolution` echoing the
caller's problem statement and skeleton code, with the sentinel text
`# Unable to generate solution` as solution code. -/
theorem c7_solution_fallback (problem_statement skeleton_code e : String)
    (parse : String → Option SolutionPayload) :
    generate_solution problem_statement skeleton_code (.error e) parse =
      ⟨problem_statement, skeleton_code, unableToGenerateMsg⟩ := rfl

/-- C8 (code bug): when the completion call raises, `generate_homework`'s
`except` arm only logs and falls through, so the Python function returns
`None` — the caller receives no sequence at all, contrary to the claim and to
the function's own `-> List[HomeworkProblem]` annotation. -/
theorem c8_homework_returns_none_on_error (transcript e : String)
    (parse : String → Option (List HomeworkPayload)) :
    generate_homework transcript (.error e) parse = none := rfl

/-- C10: every `Course` that `generate_course_structure` returns has, in every
session, empty `coding_problem` and `coding_solution`, and in every topic,
`duration_minutes = 0`, empty `youtube_url` and no questions — whatever values
the parsed payload supplied for those fields. -/
theorem c10_course_placeholder_fields (title : String) (ts tps : Int)
    (oracle : Nat → Except String String)
    (parse : String → Option (Option CoursePayload)) (c : Course)
    (hc : generate_course_structure title ts tps oracle parse = .ok c) :
    ∀ s ∈ c.sessions, s.coding_problem = "" ∧ s.coding_solution = "" ∧
      ∀ t ∈ s.topics, t.duration_minutes = 0 ∧ t.youtube_url = "" ∧
        t.questions = [] := by
  intro s hs
  cases h : (callLLM (none : Option CoursePayload) oracle parse 2).1 with
  | none => simp [generate_course_structure, h] at hc
  | some p =>
    simp only [generate_course_structure, h, Except.ok.injEq] at hc
    subst hc
    simp only [List.mem_map] at hs
    obtain ⟨sp, _, rfl⟩ := hs
    refine ⟨rfl, rfl, ?_⟩
    intro t ht
    simp only [hydrateSession, List.mem_map] at ht
    obtain ⟨tp, _, rfl⟩ := ht
    exact ⟨rfl, rfl, rfl⟩

/-- Witness for C10: a payload supplying its own coding problem, solution,
topic duration, URL and questions still hydrates to the placeholder values. -/
theorem c10_course_placeholder_fields_witness :
    c10Session.coding_problem = "" ∧ c10Session.coding_solution = "" := by
  have h := c10_course_placeholder_fields "T" 1 1 c10Oracle c10Parse
    ⟨"Calc", "advanced", 7, [c10Session]⟩ rfl c10Session (by simp)
  exact ⟨h.1, h.2.1⟩

/-! ### Lemmas about line splitting and joining -/

/-- Splitting at line boundaries always yields at least one line. -/
theorem splitLinesF_ne_nil : ∀ (fuel : Nat) (s : List Char),
    splitLinesF fuel s ≠ [] := by
  intro fuel s
  match fuel, s with
  | fuel, [] => simp [splitLinesF]
  | 0, c :: rest => simp [splitLinesF]
  | f + 1, c :: rest =>
    simp only [splitLinesF]
    split
    · simp
    · split
      · simp
      · split <;> simp

/-- Splitting at line boundaries always yields at least one line. -/
theorem splitLines_ne_nil (s : List Char) : splitLines s ≠ [] :=
  splitLinesF_ne_nil s.length s

/-- A string free of line boundaries is a single line. -/
theorem splitLines_no_break : ∀ a : List Char, (∀ c ∈ a, isPyLineBreak c = false) →
    splitLines a = [a] := by
  intro a
  induction a with
  | nil => intro _; rfl
  | cons c rest ih =>
    intro h
    have hc : isPyLineBreak c = false := h c (by simp)
    have hcr : ¬ c = '\r' := by
      intro e
      rw [e] at hc
      exact absurd hc (by decide)
    have hr : ¬ (c = '\r' ∧ rest.head? = some '\n') := fun hand => hcr hand.1
    have hb : ¬ isPyLineBreak c = true := by simp [hc]
    have hrest : ∀ x ∈ rest, isPyLineBreak x = false := fun x hx => h x (by simp [hx])
    show splitLinesF (c :: rest).length (c :: rest) = [c :: rest]
    rw [List.length_cons]
    simp only [splitLinesF, if_neg hr, if_neg hb]
    rw [show splitLinesF rest.length rest = [rest] from ih hrest]

/-- Splitting distributes over a newline that follows a boundary-free chunk. -/
theorem splitLines_append_cons : ∀ a t : List Char,
    (∀ c ∈ a, isPyLineBreak c = false) →
    splitLines (a ++ '\n' :: t) = a :: splitLines t := by
  intro a
  induction a with
  | nil =>
    intro t _
    show splitLinesF ('\n' :: t).length ('\n' :: t) = [] :: splitLines t
    rw [List.length_cons]
    simp only [splitLinesF]
    rw [if_neg (fun hand => absurd hand.1 (by decide))]
    rw [if_pos (by decide)]
    rfl
  | cons c rest ih =>
    intro t h
    have hc : isPyLineBreak c = false := h c (by simp)
    have hcr : ¬ c = '\r' := by
      intro e
      rw [e] at hc
      exact absurd hc (by decide)
    have hr : ¬ (c = '\r' ∧ (rest ++ '\n' :: t).head? = some '\n') :=
      fun hand => hcr hand.1
    have hb : ¬ isPyLineBreak c = true := by simp [hc]
    have hrest : ∀ x ∈ rest, isPyLineBreak x = false := fun x hx => h x (by simp [hx])
    show splitLinesF (c :: (rest ++ '\n' :: t)).length (c :: (rest ++ '\n' :: t))
        = (c :: rest) :: splitLines t
    rw [List.length_cons]
    simp only [splitLinesF, if_neg hr, if_neg hb]
    rw [show splitLinesF (rest ++ '\n' :: t).length (rest ++ '\n' :: t)
      = rest :: splitLines t from ih t hrest]

/-- Joining a list with a non-empty tail prepends the head and a newline. -/
theorem joinNl_cons (a : List Char) (M : List (List Char)) (h : M ≠ []) :
    joinNl (a :: M) = a ++ '\n' :: joinNl M := by
  cases M with
  | nil => exact absurd rfl h
  | cons m ms => rfl

/-- Appending one final line to a non-empty line list appends a newline and
that line to the join. -/
theorem joinNl_concat (x : List Char) : ∀ L : List (List Char), L ≠ [] →
    joinNl (L ++ [x]) = joinNl L ++ '\n' :: x := by
  intro L
  induction L with
  | nil => intro h; exact absurd rfl h
  | cons l ls ih =>
    intro _
    cases ls with
    | nil => rfl
    | cons l2 ls2 =>
      have step := ih (by simp)
      rw [show (l :: l2 :: ls2) ++ [x] = l :: ((l2 :: ls2) ++ [x]) from rfl]
      rw [joinNl_cons l ((l2 :: ls2) ++ [x]) (by simp)]
      rw [joinNl_cons l (l2 :: ls2) (by simp)]
      rw [step]
      simp

/-- Round trip: splitting the join of boundary-free lines recovers the
lines. -/
theorem splitLines_joinNl : ∀ L : List (List Char), L ≠ [] →
    (∀ l ∈ L, ∀ c ∈ l, isPyLineBreak c = false) → splitLines (joinNl L) = L := by
  intro L
  induction L with
  | nil => intro h; exact absurd rfl h
  | cons l ls ih =>
    intro _ hnl
    cases ls with
    | nil => exact splitLines_no_break l (hnl l (by simp))
    | cons l2 ls2 =>
      rw [joinNl_cons l (l2 :: ls2) (by simp)]
      rw [splitLines_append_cons l (joinNl (l2 :: ls2)) (hnl l (by simp))]
      rw [ih (by simp) (fun x hx => hnl x (by simp [hx]))]

/-! ### Lemmas about separator splitting -/

/-- Splitting always yields at least one part. -/
theorem pySplitF_ne_nil (c0 : Char) (sepR : List Char) :
    ∀ (fuel : Nat) (s : List Char), pySplitF c0 sepR fuel s ≠ [] := by
  intro fuel s
  match fuel, s with
  | fuel, [] => simp [pySplitF]
  | 0, c :: rest => simp [pySplitF]
  | f + 1, c :: rest =>
    simp only [pySplitF]
    by_cases h : c = c0 ∧ sepR.isPrefixOf rest
    · simp [h]
    · rw [if_neg h]
      cases pySplitF c0 sepR f rest <;> simp

/-- Splitting always yields at least one part. -/
theorem pySplit_ne_nil (sep s : List Char) : pySplit sep s ≠ [] := by
  cases sep with
  | nil => simp [pySplit]
  | cons c0 sepR => exact pySplitF_ne_nil c0 sepR s.length s

/-- Any fuel at least the string length computes the same split. -/
theorem pySplitF_fuel (c0 : Char) (sepR : List Char) :
    ∀ (f1 f2 : Nat) (s : List Char), s.length ≤ f1 → s.length ≤ f2 →
      pySplitF c0 sepR f1 s = pySplitF c0 sepR f2 s := by
  intro f1
  induction f1 with
  | zero =>
    intro f2 s h1 _
    have hs : s = [] := List.eq_nil_of_length_eq_zero (Nat.le_zero.mp h1)
    subst hs
    simp [pySplitF]
  | succ f1 ih =>
    intro f2 s h1 h2
    cases s with
    | nil => simp [pySplitF]
    | cons c rest =>
      cases f2 with
      | zero => simp at h2
      | succ f2 =>
        simp only [List.length_cons, Nat.succ_le_succ_iff] at h1 h2
        simp only [pySplitF]
        by_cases h : c = c0 ∧ sepR.isPrefixOf rest
        · rw [if_pos h, if_pos h]
          have hd : (rest.drop sepR.length).length ≤ f1 := by
            rw [List.length_drop]; omega
          have hd2 : (rest.drop sepR.length).length ≤ f2 := by
            rw [List.length_drop]; omega
          rw [ih f2 (rest.drop sepR.length) hd hd2]
        · rw [if_neg h, if_neg h]
          rw [ih f2 rest h1 h2]

/-- A list is a `Bool`-prefix of itself followed by anything. -/
theorem isPrefixOf_self_append : ∀ l r : List Char, l.isPrefixOf (l ++ r) = true := by
  intro l r
  induction l with
  | nil => simp [List.isPrefixOf]
  | cons c cs ih => simp [List.isPrefixOf, ih]

/-- A `Bool`-prefix of a list is a prefix of that list followed by anything. -/
theorem isPrefixOf_append_left : ∀ l a b : List Char,
    l.isPrefixOf a = true → l.isPrefixOf (a ++ b) = true := by
  intro l
  induction l with
  | nil => intro a b _; simp [List.isPrefixOf]
  | cons c cs ih =>
    intro a b h
    cases a with
    | nil => simp [List.isPrefixOf] at h
    | cons d ds =>
      simp only [List.isPrefixOf, Bool.and_eq_true] at h
      simp only [List.cons_append, List.isPrefixOf, Bool.and_eq_true]
      exact ⟨h.1, ih ds b h.2⟩

/-- Splitting a string that starts with the separator: an empty first part,
then the split of the remainder. -/
theorem pySplit_cons_self (c0 : Char) (sepR t : List Char) :
    pySplit (c0 :: sepR) (c0 :: (sepR ++ t)) = [] :: pySplit (c0 :: sepR) t := by
  simp only [pySplit, List.length_cons]
  simp only [pySplitF]
  rw [if_pos (by simp [isPrefixOf_self_append])]
  rw [List.drop_left]
  have : t.length ≤ (sepR ++ t).length := by simp [List.length_append]
  rw [pySplitF_fuel c0 sepR (sepR ++ t).length t.length t this (Nat.le_refl _)]

/-- Splitting after a chunk free of the separator's head character only
prepends that chunk to the first part. -/
theorem pySplit_no_head_append (c0 : Char) (sepR : List Char) :
    ∀ a t : List Char, c0 ∉ a →
      pySplit (c0 :: sepR) (a ++ t) = (pySplit (c0 :: sepR) t).modifyHead (a ++ ·) := by
  intro a
  induction a with
  | nil =>
    intro t _
    simp only [List.nil_append]
    cases hp : pySplit (c0 :: sepR) t with
    | nil => exact absurd hp (pySplit_ne_nil _ t)
    | cons hseg ls => simp
  | cons c a2 ih =>
    intro t h
    have hc : ¬ c = c0 := fun e => h (by simp [e])
    have ha2 : c0 ∉ a2 := fun e => h (by simp [e])
    have hrec := ih t ha2
    simp only [pySplit] at hrec ⊢
    simp only [List.cons_append, List.length_cons, pySplitF, List.append_eq]
    rw [if_neg (fun hand => hc hand.1)]
    rw [hrec]
    cases hp : pySplitF c0 sepR t.length t with
    | nil => exact absurd hp (pySplitF_ne_nil c0 sepR t.length t)
    | cons hseg ls => simp

/-! ### Lemmas about stripping -/

/-- Stripping a string that wraps a whitespace-trimmed core in single newlines
recovers the core. -/
theorem pyStrip_nl_sandwich (inner : List Char)
    (h1 : dropWs inner = inner) (h2 : dropWs inner.reverse = inner.reverse) :
    pyStrip ('\n' :: (inner ++ ['\n'])) = inner := by
  cases inner with
  | nil => rfl
  | cons c r =>
    have hcw : ¬ isPySpace c = true := by
      have h1x : List.dropWhile isPySpace (c :: r) = c :: r := h1
      have := List.dropWhile_eq_self_iff.mp h1x (by simp)
      simpa using this
    have hfront : dropWs ('\n' :: ((c :: r) ++ ['\n'])) = c :: (r ++ ['\n']) := by
      show List.dropWhile isPySpace ('\n' :: ((c :: r) ++ ['\n']))
          = c :: (r ++ ['\n'])
      rw [List.dropWhile_cons, if_pos (by decide)]
      rw [List.cons_append, List.dropWhile_cons, if_neg hcw]
    simp only [pyStrip]
    rw [hfront]
    rw [← List.cons_append, List.reverse_append]
    have hback : dropWs (['\n'].reverse ++ (c :: r).reverse) = (c :: r).reverse := by
      show List.dropWhile isPySpace ('\n' :: (c :: r).reverse)
          = (c :: r).reverse
      rw [List.dropWhile_cons, if_pos (by decide)]
      exact h2
    rw [hback, List.reverse_reverse]

/-- The quiz/course fence stripper reduces a fenced block — an opening line
that starts with three backticks (any language tag), interior lines free of
Python line boundaries, and a closing three-backtick line — to exactly the
interior. -/
theorem stripFenceCh_extract (first : List Char) (L : List (List Char))
    (hpre : fence3.isPrefixOf first = true)
    (hfnl : ∀ c ∈ first, isPyLineBreak c = false)
    (hL : L ≠ []) (hLnl : ∀ l ∈ L, ∀ c ∈ l, isPyLineBreak c = false) :
    stripFenceCh (first ++ '\n' :: (joinNl L ++ '\n' :: fence3)) = joinNl L := by
  have hMnl : ∀ l ∈ first :: (L ++ [fence3]), ∀ c ∈ l, isPyLineBreak c = false := by
    intro l hl
    simp only [List.mem_cons, List.mem_append, List.not_mem_nil, or_false] at hl
    rcases hl with rfl | hl | rfl
    · exact hfnl
    · exact hLnl l hl
    · decide
  have ht : joinNl (L ++ [fence3]) = joinNl L ++ '\n' :: fence3 :=
    joinNl_concat fence3 L hL
  have hT : first ++ '\n' :: (joinNl L ++ '\n' :: fence3)
      = joinNl (first :: (L ++ [fence3])) := by
    rw [joinNl_cons first (L ++ [fence3]) (by simp), ht]
  have hsplitT : splitLines (first ++ '\n' :: (joinNl L ++ '\n' :: fence3))
      = first :: (L ++ [fence3])  := by
    rw [hT]
    exact splitLines_joinNl _ (by simp) hMnl
  have hlinesT : pySplitlines (first ++ '\n' :: (joinNl L ++ '\n' :: fence3))
      = first :: (L ++ [fence3]) := by
    simp only [pySplitlines]
    rw [hsplitT]
    rw [show first :: (L ++ [fence3]) = (first :: L) ++ [fence3] from rfl]
    rw [List.getLast?_concat]
    rw [if_neg (by decide)]
  have hprefix : fence3.isPrefixOf (first ++ '\n' :: (joinNl L ++ '\n' :: fence3))
      = true := isPrefixOf_append_left fence3 first _ hpre
  have hsuf : fence3.isSuffixOf (joinNl L ++ '\n' :: fence3) = true := by
    simp only [List.isSuffixOf]
    rw [show joinNl L ++ '\n' :: fence3 = (joinNl L ++ ['\n']) ++ fence3 by simp]
    rw [List.reverse_append]
    exact isPrefixOf_self_append fence3.reverse (joinNl L ++ ['\n']).reverse
  have hlines_t : pySplitlines (joinNl L ++ '\n' :: fence3) = L ++ [fence3] := by
    rw [← ht]
    simp only [pySplitlines]
    rw [splitLines_joinNl (L ++ [fence3]) (by simp)
      (by
        intro l hl
        simp only [List.mem_append, List.mem_cons, List.not_mem_nil, or_false] at hl
        rcases hl with hl | rfl
        · exact hLnl l hl
        · decide)]
    rw [List.getLast?_concat]
    rw [if_neg (by decide)]
  simp only [stripFenceCh]
  rw [if_pos hprefix, hlinesT]
  simp only [List.drop_succ_cons, List.drop_zero]
  rw [ht, if_pos hsuf, hlines_t]
  rw [List.dropLast_concat]

/-- The solution/homework fence stripper extracts the whitespace-trimmed
interior of a json-tagged fence whose interior contains no backtick. -/
theorem stripJsonFenceCh_extract (inner : List Char)
    (hbt : btChar ∉ inner) (h1 : dropWs inner = inner)
    (h2 : dropWs inner.reverse = inner.reverse) :
    stripJsonFenceCh (jsonFenceTag ++ '\n' :: (inner ++ '\n' :: fence3)) = inner := by
  have ha : btChar ∉ ('\n' :: (inner ++ ['\n'])) := by
    intro hmem
    simp only [List.mem_cons, List.mem_append, List.not_mem_nil, or_false] at hmem
    rcases hmem with he | hmem | he
    · exact absurd he (by decide)
    · exact hbt hmem
    · exact absurd he (by decide)
  have htEq : '\n' :: (inner ++ '\n' :: fence3)
      = ('\n' :: (inner ++ ['\n'])) ++ fence3 := by simp
  have hsplit1 : pySplit jsonFenceTag (jsonFenceTag ++ '\n' :: (inner ++ '\n' :: fence3))
      = [] :: pySplit jsonFenceTag ('\n' :: (inner ++ '\n' :: fence3)) :=
    pySplit_cons_self btChar [btChar, btChar, 'j', 's', 'o', 'n']
      ('\n' :: (inner ++ '\n' :: fence3))
  have hsplit2 : pySplit jsonFenceTag ('\n' :: (inner ++ '\n' :: fence3))
      = ['\n' :: (inner ++ '\n' :: fence3)] := by
    rw [htEq]
    rw [show jsonFenceTag = btChar :: [btChar, btChar, 'j', 's', 'o', 'n'] from rfl]
    rw [pySplit_no_head_append btChar [btChar, btChar, 'j', 's', 'o', 'n']
      ('\n' :: (inner ++ ['\n'])) fence3 ha]
    rw [show pySplit (btChar :: [btChar, btChar, 'j', 's', 'o', 'n']) fence3
      = [fence3] from by decide]
    simp [fence3]
  have hsplit3 : pySplit fence3 ('\n' :: (inner ++ '\n' :: fence3))
      = [('\n' :: (inner ++ ['\n'])), []] := by
    rw [htEq]
    rw [show fence3 = btChar :: [btChar, btChar] from rfl]
    rw [pySplit_no_head_append btChar [btChar, btChar]
      ('\n' :: (inner ++ ['\n'])) [btChar, btChar, btChar] ha]
    rw [show pySplit (btChar :: [btChar, btChar]) [btChar, btChar, btChar]
      = [[], []] from by decide]
    simp
  have hparts : pySplit jsonFenceTag (jsonFenceTag ++ '\n' :: (inner ++ '\n' :: fence3))
      = [[], '\n' :: (inner ++ '\n' :: fence3)] := by
    rw [hsplit1, hsplit2]
  simp only [stripJsonFenceCh, hparts]
  rw [hsplit3]
  simp only [List.headD_cons]
  exact pyStrip_nl_sandwich inner h1 h2

/-- The solution/homework fence stripper is the identity on any text without a
json-tagged fence — in particular on text wrapped in an untagged fence. -/
theorem stripJsonFenceCh_no_tag (raw : List Char) (h : hasJsonTag raw = false) :
    stripJsonFenceCh raw = raw := by
  unfold hasJsonTag at h
  cases hp : pySplit jsonFenceTag raw with
  | nil => exact absurd hp (pySplit_ne_nil jsonFenceTag raw)
  | cons x xs =>
    cases xs with
    | nil => simp [stripJsonFenceCh, hp]
    | cons y ys =>
      rw [hp] at h
      simp [List.length_cons] at h

/-- C9 counterexample: the solution/homework sanitizer leaves an output
wrapped in an untagged code fence completely unchanged instead of extracting
its interior `[1]` (which the quiz/course sanitizer does extract), refuting
the claim that every operation's sanitizer extracts the interior of a fence
with or without a language tag. -/
theorem c9_counterexample :
    stripJsonFenceS "```\n[1]\n```" = "```\n[1]\n```" ∧
      stripFenceS "```\n[1]\n```" = "[1]" ∧
      ("```\n[1]\n```" : String) ≠ "[1]" :=
  ⟨rfl, rfl, by decide⟩

/-- C9 amended: the quiz/course sanitizer reduces any output wrapped in a
newline-joined code fence — opening line starting with three backticks, with
or without a language tag, closing line of three backticks, interior lines
free of Python line boundaries — to exactly the interior, and is a no-op on
text that does not start with a fence; the solution/homework sanitizer
extracts the (whitespace-trimmed) interior only of a `json`-tagged fence, and
on any text not containing the seven-character tag — including output wrapped
in an untagged fence — it is a no-op. -/
theorem c9_amended_fence_sanitizers :
    (∀ (first : List Char) (L : List (List Char)),
        fence3.isPrefixOf first = true → (∀ c ∈ first, isPyLineBreak c = false) →
        L ≠ [] → (∀ l ∈ L, ∀ c ∈ l, isPyLineBreak c = false) →
        stripFenceCh (first ++ '\n' :: (joinNl L ++ '\n' :: fence3)) = joinNl L) ∧
    (∀ text : List Char, fence3.isPrefixOf text = false →
        stripFenceCh text = text) ∧
    (∀ inner : List Char, btChar ∉ inner → dropWs inner = inner →
        dropWs inner.reverse = inner.reverse →
        stripJsonFenceCh (jsonFenceTag ++ '\n' :: (inner ++ '\n' :: fence3)) = inner) ∧
    (∀ raw : List Char, hasJsonTag raw = false → stripJsonFenceCh raw = raw) :=
  ⟨stripFenceCh_extract,
    fun _ h => by simp [stripFenceCh, h],
    stripJsonFenceCh_extract,
    stripJsonFenceCh_no_tag⟩

/-- Witness for C9 (amended): both sanitizers extract the interior `[1]` of a
json-tagged fence. -/
theorem c9_amended_fence_sanitizers_witness :
    stripFenceCh (jsonFenceTag ++ '\n' :: (joinNl [['[', '1', ']']] ++ '\n' :: fence3))
        = joinNl [['[', '1', ']']] ∧
      stripJsonFenceCh (jsonFenceTag ++ '\n' :: (['[', '1', ']'] ++ '\n' :: fence3))
        = ['[', '1', ']'] :=
  ⟨c9_amended_fence_sanitizers.1 jsonFenceTag [['[', '1', ']']] (by decide) (by decide)
      (by decide) (by decide),
    c9_amended_fence_sanitizers.2.2.1 ['[', '1', ']'] (by decide) (by decide) (by decide)⟩
